import Mathlib

/-!
Verification development for the `simsched` cooperative-scheduling simulator.

Threads in the source are Python generators that yield `ThreadState` tags and
receive `SchedulerMessage` commands.  We embed them shallowly: a thread body is
a `Prog S` syntax tree over a shared-state type `S`, whose only suspension
primitives are `cond_schedule` (src/src/simsched/core.py) and `finish`
(imported by the engine; modelled from the spec, see below).  A suspended
thread is a `Conf S`; `Conf.send` is the generator `send` protocol.  The engine
(`poll`, `spawn_coroutines`, `run` from src/src/simsched/engine.py) and the run
driver (`simsched` from src/src/simsched/runner.py) are translated on top.
-/

set_option autoImplicit false

namespace Simsched

/-- Model of Python exception objects as they cross the engine boundary.
`runtimeError` stands for the `RuntimeError` raised by `Mutex.unlock`,
`indexError` for the `IndexError` of `deque.popleft` / `deque[0]`,
`stopIteration` for `StopIteration`, `assertionError` for a failing `assert`,
and `user n` for an arbitrary user exception object identified by a token. -/
inductive Exc where
  | runtimeError : Exc
  | indexError : Exc
  | stopIteration : Exc
  | assertionError : Exc
  | user : Nat → Exc
deriving DecidableEq

/-- `ThreadState` from src/src/simsched/core.py (YIELD, READY, BLOCK).
`FINAL` is modelled from the spec: it is matched by the engine
(src/src/simsched/engine.py, `poll`) but absent from the `core.py` copy under
src/; the spec lists it as "the thread has finished and must not be scheduled
again". -/
inductive ThreadState where
  | YIELD : ThreadState
  | READY : ThreadState
  | BLOCK : ThreadState
  | FINAL : ThreadState
deriving DecidableEq

/-- `SchedulerMessage` from src/src/simsched/core.py. -/
inductive SchedulerMessage where
  | POLL : SchedulerMessage
  | CONT : SchedulerMessage
deriving DecidableEq

/-- Syntax of simthread bodies over shared state `S`.

* `ret` — the generator body returns.
* `act f k` — straight-line user code between suspension points: it mutates
  the shared state and may raise (`f s = (s', some e)`), then continues as `k`.
* `cond_schedule p k` — `yield from cond_schedule(p)` followed by `k`; the
  predicate is evaluated on each `POLL` and may itself raise.
* `finish` — `yield from finish()`.  Modelled from the spec: `finish` is
  imported by src/src/simsched/engine.py from `core` but missing from the
  `core.py` copy under src/; per the spec it suspends publishing `Yield` once
  and on any subsequent poll publishes `Final`, stickily. -/
inductive Prog (S : Type) where
  | ret : Prog S
  | act : (S → S × Option Exc) → Prog S → Prog S
  | cond_schedule : (S → Except Exc Bool) → Prog S → Prog S
  | finish : Prog S

/-- Sequencing of thread bodies (`yield from a` then `yield from b`).
Code after `finish` is unreachable because `finish` never returns to its
caller. -/
def Prog.seq {S : Type} : Prog S → Prog S → Prog S
  | .ret, q => q
  | .act f k, q => .act f (k.seq q)
  | .cond_schedule p k, q => .cond_schedule p (k.seq q)
  | .finish, _ => .finish

/-- `schedule()` from src/src/simsched/core.py:
`yield from cond_schedule(lambda: True)`. -/
def Prog.schedule {S : Type} : Prog S :=
  .cond_schedule (fun _ => Except.ok true) .ret

/-- Runtime configuration of a suspended thread generator.

* `susp p k` — suspended at a `yield` inside `cond_schedule(p)` (any of its
  three yield points: they are indistinguishable to the engine), with `k` the
  code that runs after the `CONT` break.
* `fin` — suspended inside `finish()`s loop. -/
inductive Conf (S : Type) where
  | susp : (S → Except Exc Bool) → Prog S → Conf S
  | fin : Conf S

/-- Outcome of resuming a generator: it suspends again publishing a
`ThreadState`, raises an exception, or returns (`StopIteration`). -/
inductive StepOut (S : Type) where
  | suspended : Conf S → S → ThreadState → StepOut S
  | raised : Exc → S → StepOut S
  | stopped : S → StepOut S

/-- Run a thread body until its next suspension point (the code executed
between receiving `CONT` and the next `yield`).  The first yield of
`cond_schedule` is `YIELD` (core.py line 44), and so is the first yield of
`finish` (spec: "Suspend, publishing Yield"). -/
def Prog.advance {S : Type} : Prog S → S → StepOut S
  | .ret, s => .stopped s
  | .act f k, s =>
    match f s with
    | (s', none) => k.advance s'
    | (s', some e) => .raised e s'
  | .cond_schedule p k, s => .suspended (.susp p k) s .YIELD
  | .finish, s => .suspended .fin s .YIELD

/-- The generator `send` protocol, as implemented by `cond_schedule`
(src/src/simsched/core.py lines 44-54) and by `finish` (modelled from the
spec).  On `POLL`, `cond_schedule` evaluates its predicate and yields `READY`
or `BLOCK` staying in place (an exception from the predicate propagates to the
caller of `send`); on `CONT` it breaks and the continuation runs.  A thread in
`finish` publishes `FINAL` on every resumption and never leaves that state. -/
def Conf.send {S : Type} (s : S) : Conf S → SchedulerMessage → StepOut S
  | .susp p k, .POLL =>
    match p s with
    | .error e => .raised e s
    | .ok true => .suspended (.susp p k) s .READY
    | .ok false => .suspended (.susp p k) s .BLOCK
  | .susp _ k, .CONT => k.advance s
  | .fin, .POLL => .suspended .fin s .FINAL
  | .fin, .CONT => .suspended .fin s .FINAL

/-- The wrapper of src/src/simsched/engine.py `spawn_coroutines`:
`yield from schedule(); yield from t(); yield from finish()`. -/
def simthread_wrapper {S : Type} (t : Prog S) : Prog S :=
  Prog.seq Prog.schedule (Prog.seq t Prog.finish)

/-- Configuration of a freshly spawned wrapped thread after `next(thrd)` drove
it to its first suspension: suspended inside the wrapper's leading
`schedule()`, with the user body followed by `finish()` as continuation.
`spawn_advance` below checks this against `Prog.advance`. -/
def spawn1 {S : Type} (t : Prog S) : Conf S :=
  Conf.susp (fun _ => Except.ok true) (Prog.seq t Prog.finish)

/-- `spawn_coroutines` (src/src/simsched/engine.py): wrap each constructor and
drive it to its first suspension.  Driving to the first suspension does not
touch shared state and always publishes `YIELD` (see `spawn_advance`), so the
per-thread `assert state == ThreadState.YIELD` never fires. -/
def spawn_coroutines {S : Type} (ts : List (Prog S)) : List (Conf S) :=
  ts.map spawn1

/-- `SimResult` (src/src/simsched/engine.py): the four result dataclasses
`SimOk`, `SimDeadlock`, `SimTimeout`, `SimPanic(e)` as one sum type. -/
inductive SimResult where
  | SimOk : SimResult
  | SimDeadlock : SimResult
  | SimTimeout : SimResult
  | SimPanic : Exc → SimResult
deriving DecidableEq

/-- Loop body of `poll` (src/src/simsched/engine.py lines 29-49), iterating
over the thread list with the position `i` of the current thread.  Threads are
identified by their index in the engine's thread list (the Python code keeps
object references; indices play that role here).  `FINAL` threads are skipped
(`continue`), `READY` threads go to both lists, all other reported states go to
the total list only.  `poll` performs no exception handling, so a raising
predicate (or a `StopIteration`) propagates to the caller. -/
def pollGo {S : Type} (s : S) : List (Conf S) → Nat → Except Exc (List Nat × List Nat)
  | [], _ => Except.ok ([], [])
  | thrd :: rest, i =>
    match Conf.send s thrd SchedulerMessage.POLL with
    | .raised e _ => Except.error e
    | .stopped _ => Except.error Exc.stopIteration
    | .suspended _ _ st =>
      match st with
      | .FINAL => pollGo s rest (i + 1)
      | .READY =>
        match pollGo s rest (i + 1) with
        | .error e => Except.error e
        | .ok (ready, total) => Except.ok (i :: ready, i :: total)
      | _ =>
        match pollGo s rest (i + 1) with
        | .error e => Except.error e
        | .ok (ready, total) => Except.ok (ready, i :: total)

/-- `poll` (src/src/simsched/engine.py): returns the pair
(ready threads, total unfinished threads), as index lists. -/
def poll {S : Type} (s : S) (threads : List (Conf S)) :
    Except Exc (List Nat × List Nat) :=
  pollGo s threads 0

/-- `random.choice(runnables)`: pick an element of the list, the randomness
supplied externally as the number `r` (reduced modulo the list length). -/
def choice (l : List Nat) (r : Nat) : Nat :=
  l.getD (r % l.length) 0

/-- Observable outcome of the engine's main loop.  `result` and `state` mirror
the source (`Except.error` is an exception propagating out of `run`, which the
source does not catch); `iters` counts executed loop iterations and `trace`
records the index of the thread advanced with `CONT` at each step — both are
pure observers added for the specification. -/
structure LoopOut (S : Type) where
  result : Except Exc SimResult
  state : S
  iters : Nat
  trace : List Nat

/-- The main loop of `run` (src/src/simsched/engine.py lines 117-144):
`for _ in range(fuel)` over the poll / classify / advance body, returning
`SimTimeout` when the iteration budget is exhausted.  A user exception during
the `CONT` advance is caught and returned as `SimPanic` (as is a
`StopIteration`, which `except Exception` also catches); the trailing
`assert state == ThreadState.YIELD` sits outside the `try` block, as does the
`poll` call, so exceptions there propagate. -/
def runLoop {S : Type} : Nat → S → List (Conf S) → List Nat → LoopOut S
  | 0, s, _, _ => ⟨Except.ok SimResult.SimTimeout, s, 0, []⟩
  | fuel + 1, s, threads, oracle =>
    match poll s threads with
    | .error e => ⟨Except.error e, s, 1, []⟩
    | .ok (runnables, available) =>
      if runnables.isEmpty then
        if available.isEmpty then ⟨Except.ok SimResult.SimOk, s, 1, []⟩
        else ⟨Except.ok SimResult.SimDeadlock, s, 1, []⟩
      else
        let i := choice runnables (oracle.headD 0)
        match Conf.send s (threads.getD i Conf.fin) SchedulerMessage.CONT with
        | .raised e s' => ⟨Except.ok (SimResult.SimPanic e), s', 1, [i]⟩
        | .stopped s' => ⟨Except.ok (SimResult.SimPanic Exc.stopIteration), s', 1, [i]⟩
        | .suspended c' s' st =>
          if st = ThreadState.YIELD then
            let out := runLoop fuel s' (threads.set i c') oracle.tail
            ⟨out.result, out.state, out.iters + 1, i :: out.trace⟩
          else
            ⟨Except.error Exc.assertionError, s', 1, [i]⟩

/-- `run` (src/src/simsched/engine.py): spawn the wrapped coroutines and run
the main loop with budget `max_steps + len(threads)`. -/
def run {S : Type} (coros : List (Prog S)) (s : S) (oracle : List Nat)
    (max_steps : Nat) : LoopOut S :=
  runLoop (max_steps + coros.length) s (spawn_coroutines coros) oracle

/-- `run` with its default argument `max_steps = 1000`. -/
def run_default {S : Type} (coros : List (Prog S)) (s : S) (oracle : List Nat) :
    LoopOut S :=
  run coros s oracle 1000

/-! ## Library primitives (src/src/simsched/lib.py) -/

/-- `Cell`: mutable container for any type. -/
structure Cell (α : Type) where
  val : α
deriving DecidableEq

/-- `Mutex` (src/src/simsched/lib.py): `locked: bool = False`,
`label: str | None = None`, `owner: Any = None`.  The label is an opaque
user-chosen tag (a string in the source, a `Nat` token here); the owner is an
opaque comparable token of caller-chosen type `O`. -/
structure Mutex (O : Type) where
  locked : Bool
  label : Option Nat
  owner : Option O
deriving DecidableEq

/-- A fresh mutex with the source's default field values. -/
def Mutex.init {O : Type} : Mutex O := ⟨false, none, none⟩

/-- The code of `Mutex.unlock` that runs before its first suspension point:
`if not self.locked: raise RuntimeError("trying to unlock non-locked mutex")`,
otherwise `self.locked = False; self.owner = None`. -/
def Mutex.unlock_act {O : Type} (m : Mutex O) : Mutex O × Option Exc :=
  if m.locked = false then (m, some Exc.runtimeError)
  else ({ m with locked := false, owner := none }, none)

/-- `Mutex.unlock` (src/src/simsched/lib.py lines 49-59) as a simthread over
the mutex state: run `unlock_act`, then `yield from schedule()`. -/
def Mutex.unlock {O : Type} : Prog (Mutex O) :=
  Prog.act Mutex.unlock_act Prog.schedule

/-- Shared state of a channel pair: the shared `deque` buffer (a `List`, head
at the left as for `popleft`/`buf[0]`, appended at the right) together with the
out-parameter `Cell` that the consumer passes to `peek`/`recv`. -/
structure ChanState (α : Type) where
  buf : List α
  ret : Cell α
deriving DecidableEq

/-- `create_channel` makes an empty shared buffer; `r0` is the initial content
of the consumer's out-cell. -/
def create_channel {α : Type} (r0 : α) : ChanState α :=
  ⟨[], ⟨r0⟩⟩

/-- The code of `TxChannel.send` before its suspension point:
`self.buf.append(item)`. -/
def TxChannel.send_act {α : Type} (item : α) (c : ChanState α) :
    ChanState α × Option Exc :=
  ({ c with buf := c.buf ++ [item] }, none)

/-- `TxChannel.send` (src/src/simsched/lib.py lines 68-71): append the item,
then `yield from schedule()`. -/
def TxChannel.send {α : Type} (item : α) : Prog (ChanState α) :=
  Prog.act (TxChannel.send_act item) Prog.schedule

/-- The wakeup predicate of `RxChannel.peek`: `bool(self.buf)`. -/
def RxChannel.peek_pred {α : Type} (c : ChanState α) : Except Exc Bool :=
  Except.ok (!c.buf.isEmpty)

/-- The code of `RxChannel.peek` after its `cond_schedule` returns:
`ret.val = self.buf[0]` (reading `buf[0]` from an empty deque raises
`IndexError`). -/
def RxChannel.peek_act {α : Type} (c : ChanState α) : ChanState α × Option Exc :=
  match c.buf with
  | [] => (c, some Exc.indexError)
  | x :: _ => ({ c with ret := ⟨x⟩ }, none)

/-- `RxChannel.peek` (src/src/simsched/lib.py):
`yield from cond_schedule(lambda: bool(self.buf)); ret.val = self.buf[0]`. -/
def RxChannel.peek {α : Type} : Prog (ChanState α) :=
  Prog.cond_schedule RxChannel.peek_pred (Prog.act RxChannel.peek_act Prog.ret)

/-- `RxChannel.consume` (src/src/simsched/lib.py lines 85-87):
`self.buf.popleft()`.  It is a plain method, not a simthread: it runs inline
within the caller's current step.  `popleft` on an empty deque raises
`IndexError`. -/
def RxChannel.consume_act {α : Type} (c : ChanState α) : ChanState α × Option Exc :=
  match c.buf with
  | [] => (c, some Exc.indexError)
  | _ :: t => ({ c with buf := t }, none)

/-- `RxChannel.recv` (src/src/simsched/lib.py):
`yield from self.peek(ret); self.consume()`. -/
def RxChannel.recv {α : Type} : Prog (ChanState α) :=
  Prog.seq RxChannel.peek (Prog.act RxChannel.consume_act Prog.ret)

/-! ## Run driver (src/src/simsched/runner.py) -/

/-- `RunStats` (src/src/simsched/runner.py lines 36-43): the four per-outcome
counters.  The `last` field is modelled from the spec: "`last:
Option<RunResult>`", "`last` reflects the most recently completed run" — it is
absent from the `RunStats` dataclass in the runner.py copy under src/ although
the repository's tests construct `RunStats(..., last=SimOk())`. -/
structure RunStats where
  ok : Nat
  deadlock : Nat
  timeout : Nat
  panic : Nat
  last : Option SimResult
deriving DecidableEq

/-- A fresh `RunStats()` with all counters zero. -/
def RunStats.init : RunStats := ⟨0, 0, 0, 0, none⟩

/-- Modelled from the spec: "`total: derived = sum`" — the `total` field of
`RunStats` is absent from the runner.py copy under src/ (though used by the
repository's tests); per the spec it is derived as the sum of the four
counters. -/
def RunStats.total (st : RunStats) : Nat :=
  st.ok + st.deadlock + st.timeout + st.panic

/-- One iteration of the driver's `match run(coros)` block
(src/src/simsched/runner.py lines 61-72): increment the counter matching the
run's result.  The update of `last` is modelled from the spec: "Update `last`
and the matching counter". -/
def simsched_update (stats : RunStats) (r : SimResult) : RunStats :=
  match r with
  | .SimOk => { stats with ok := stats.ok + 1, last := some SimResult.SimOk }
  | .SimDeadlock =>
    { stats with deadlock := stats.deadlock + 1, last := some SimResult.SimDeadlock }
  | .SimTimeout =>
    { stats with timeout := stats.timeout + 1, last := some SimResult.SimTimeout }
  | .SimPanic e =>
    { stats with panic := stats.panic + 1, last := some (SimResult.SimPanic e) }

/-- The driver loop of `simsched` (src/src/simsched/runner.py lines 50-74).
The caller-supplied looper generator is abstracted by the predicate
`looper : RunStats → Bool` — "given the current stats, does the looper yield
one more tick?" — and `oracles i` supplies the randomness of the `i`-th engine
run.  `fuel` bounds how many ticks we observe (the Python loop may run
unboundedly); the second component of the result counts the completed runs, a
pure observer.  An exception propagating out of `run` (a raising poll
predicate) propagates out of the driver as well: only `KeyboardInterrupt` is
suppressed in the source. -/
def simsched_go {S : Type} (coros : List (Prog S)) (looper : RunStats → Bool)
    (oracles : Nat → List Nat) :
    Nat → Nat → S → RunStats → Except Exc (RunStats × Nat)
  | 0, _, _, stats => Except.ok (stats, 0)
  | fuel + 1, i, s, stats =>
    if looper stats then
      match (run coros s (oracles i) 1000).result with
      | .error e => Except.error e
      | .ok r =>
        match simsched_go coros looper oracles fuel (i + 1)
            (run coros s (oracles i) 1000).state (simsched_update stats r) with
        | .error e => Except.error e
        | .ok (final, n) => Except.ok (final, n + 1)
    else Except.ok (stats, 0)

/-- `simsched` (src/src/simsched/runner.py): fix the coroutine list, create a
fresh `RunStats`, and iterate the looper-controlled driver loop. -/
def simsched {S : Type} (coros : List (Prog S)) (s : S) (looper : RunStats → Bool)
    (oracles : Nat → List Nat) (fuel : Nat) : Except Exc (RunStats × Nat) :=
  simsched_go coros looper oracles fuel 0 s RunStats.init

/-- Sending all of `xs` in order through `TxChannel.send_act`. -/
def sendAll {α : Type} (xs : List α) (c : ChanState α) : ChanState α :=
  xs.foldl (fun st z => (TxChannel.send_act z st).1) c

/-- A thread body obeys the spec's predicate contract when every
`cond_schedule` predicate in it is total (never raises).  User actions may
still raise: the engine converts those to `SimPanic`. -/
def ProgPure {S : Type} : Prog S → Prop
  | .ret => True
  | .act _ k => ProgPure k
  | .cond_schedule p k => (∀ s, ∃ b, p s = Except.ok b) ∧ ProgPure k
  | .finish => True

/-- A suspended thread obeys the predicate contract. -/
def ConfPure {S : Type} : Conf S → Prop
  | .susp p k => (∀ s, ∃ b, p s = Except.ok b) ∧ ProgPure k
  | .fin => True

/-! ## Helper lemmas -/

/-- Justification for `spawn1`: advancing the wrapper from the start suspends
with `YIELD` at exactly the configuration `spawn1 t`, without touching shared
state, so the per-thread `assert state == ThreadState.YIELD` in
`spawn_coroutines` never fires. -/
theorem spawn_advance {S : Type} (t : Prog S) (s : S) :
    (simthread_wrapper t).advance s = .suspended (spawn1 t) s .YIELD := rfl

lemma sendAll_buf {α : Type} (xs : List α) (c : ChanState α) :
    (sendAll xs c).buf = c.buf ++ xs := by
  induction xs generalizing c with
  | nil => simp [sendAll]
  | cons x rest ih =>
    show (sendAll rest (TxChannel.send_act x c).1).buf = c.buf ++ x :: rest
    rw [ih]
    simp [TxChannel.send_act]

lemma simsched_update_total (stats : RunStats) (r : SimResult) :
    (simsched_update stats r).total = stats.total + 1 := by
  cases r <;> simp [simsched_update, RunStats.total] <;> omega

lemma simsched_go_total {S : Type} (coros : List (Prog S)) (looper : RunStats → Bool)
    (oracles : Nat → List Nat) :
    ∀ (fuel i : Nat) (s : S) (stats st : RunStats) (n : Nat),
      simsched_go coros looper oracles fuel i s stats = Except.ok (st, n) →
      st.total = stats.total + n := by
  intro fuel
  induction fuel with
  | zero =>
    intro i s stats st n h
    simp [simsched_go] at h
    obtain ⟨rfl, rfl⟩ := h
    simp
  | succ fuel ih =>
    intro i s stats st n h
    rw [simsched_go] at h
    by_cases hl : looper stats
    · simp only [hl, if_true] at h
      split at h
      · exact absurd h (by simp)
      · split at h
        · exact absurd h (by simp)
        · rename_i r heq final n' heq2
          simp at h
          obtain ⟨h1, h2⟩ := h
          subst h1
          have := ih _ _ _ _ _ heq2
          rw [simsched_update_total] at this
          omega
    · simp only [hl, if_false] at h
      simp at h
      obtain ⟨h1, h2⟩ := h
      subst h1
      omega

lemma choice_mem (l : List Nat) (r : Nat) (h : l ≠ []) : choice l r ∈ l := by
  have hpos : 0 < l.length := List.length_pos.mpr h
  have hlt : r % l.length < l.length := Nat.mod_lt r hpos
  rw [choice, List.getD_eq_getElem l 0 hlt]
  exact List.get_mem l _ hlt

lemma pollGo_ready_spec {S : Type} (s : S) :
    ∀ (ts : List (Conf S)) (j : Nat) (rdy tot : List Nat),
      pollGo s ts j = Except.ok (rdy, tot) →
      ∀ i ∈ rdy,
        ∃ (m : Nat) (hm : m < ts.length) (p : S → Except Exc Bool) (k : Prog S),
          i = j + m ∧ ts.get ⟨m, hm⟩ = Conf.susp p k ∧ p s = Except.ok true := by
  intro ts
  induction ts with
  | nil =>
    intro j rdy tot h i hi
    simp [pollGo] at h
    obtain ⟨h1, h2⟩ := h
    subst h1
    cases hi
  | cons c rest ih =>
    intro j rdy tot h i hi
    cases c with
    | fin =>
      simp only [pollGo, Conf.send] at h
      obtain ⟨m, hm, p, k, him, hget, hp⟩ := ih (j + 1) rdy tot h i hi
      exact ⟨m + 1, by simpa using Nat.succ_lt_succ hm, p, k, by omega, hget, hp⟩
    | susp p k =>
      cases hp : p s with
      | error e =>
        simp only [pollGo, Conf.send, hp] at h
        cases h
      | ok b =>
        cases b with
        | true =>
          simp only [pollGo, Conf.send, hp] at h
          split at h
          · cases h
          · rename_i ready total heq
            simp only [Except.ok.injEq, Prod.mk.injEq] at h
            obtain ⟨h1, h2⟩ := h
            subst h1
            rcases List.mem_cons.mp hi with hij | hir
            · subst hij
              exact ⟨0, by simp, p, k, by omega, rfl, hp⟩
            · obtain ⟨m, hm, p', k', him, hget, hp'⟩ := ih (j + 1) ready total heq i hir
              exact ⟨m + 1, by simpa using Nat.succ_lt_succ hm, p', k', by omega, hget, hp'⟩
        | false =>
          simp only [pollGo, Conf.send, hp] at h
          split at h
          · cases h
          · rename_i ready total heq
            simp only [Except.ok.injEq, Prod.mk.injEq] at h
            obtain ⟨h1, h2⟩ := h
            subst h1
            obtain ⟨m, hm, p', k', him, hget, hp'⟩ := ih (j + 1) ready total heq i hi
            exact ⟨m + 1, by simpa using Nat.succ_lt_succ hm, p', k', by omega, hget, hp'⟩

lemma poll_ready_spec {S : Type} (s : S) (threads : List (Conf S))
    (rdy tot : List Nat) (h : poll s threads = Except.ok (rdy, tot))
    (i : Nat) (hi : i ∈ rdy) :
    ∃ (hm : i < threads.length) (p : S → Except Exc Bool) (k : Prog S),
      threads.get ⟨i, hm⟩ = Conf.susp p k ∧ p s = Except.ok true := by
  obtain ⟨m, hm, p, k, him, hget, hp⟩ := pollGo_ready_spec s threads 0 rdy tot h i hi
  have hmi : i = m := by omega
  subst hmi
  exact ⟨hm, p, k, hget, hp⟩

lemma poll_fin_not_ready {S : Type} (s : S) (threads : List (Conf S))
    (rdy tot : List Nat) (h : poll s threads = Except.ok (rdy, tot))
    (i : Nat) (hlen : i < threads.length)
    (hfin : threads.get ⟨i, hlen⟩ = Conf.fin) : i ∉ rdy := by
  intro hi
  obtain ⟨hm, p, k, hget, hp⟩ := poll_ready_spec s threads rdy tot h i hi
  rw [hfin] at hget
  cases hget

lemma advance_yield {S : Type} :
    ∀ (k : Prog S) (s : S) (c' : Conf S) (s' : S) (st : ThreadState),
      k.advance s = StepOut.suspended c' s' st → st = ThreadState.YIELD := by
  intro k
  induction k with
  | ret =>
    intro s c' s' st h
    cases h
  | act f k ih =>
    intro s c' s' st h
    simp only [Prog.advance] at h
    split at h
    · exact ih _ _ _ _ h
    · cases h
  | cond_schedule p k ih =>
    intro s c' s' st h
    simp only [Prog.advance, StepOut.suspended.injEq] at h
    exact h.2.2.symm
  | finish =>
    intro s c' s' st h
    simp only [Prog.advance, StepOut.suspended.injEq] at h
    exact h.2.2.symm

lemma advance_pure {S : Type} :
    ∀ (k : Prog S) (s : S) (c' : Conf S) (s' : S) (st : ThreadState),
      ProgPure k → k.advance s = StepOut.suspended c' s' st → ConfPure c' := by
  intro k
  induction k with
  | ret =>
    intro s c' s' st _ h
    cases h
  | act f k ih =>
    intro s c' s' st hk h
    simp only [Prog.advance] at h
    split at h
    · exact ih _ _ _ _ hk h
    · cases h
  | cond_schedule p k ih =>
    intro s c' s' st hk h
    simp only [Prog.advance, StepOut.suspended.injEq] at h
    rw [← h.1]
    exact ⟨hk.1, hk.2⟩
  | finish =>
    intro s c' s' st _ h
    simp only [Prog.advance, StepOut.suspended.injEq] at h
    rw [← h.1]
    trivial

lemma seq_pure {S : Type} :
    ∀ (a b : Prog S), ProgPure a → ProgPure b → ProgPure (a.seq b) := by
  intro a
  induction a with
  | ret => intro b _ hb; exact hb
  | act f k ih => intro b ha hb; exact ih b ha hb
  | cond_schedule p k ih => intro b ha hb; exact ⟨ha.1, ih b ha.2 hb⟩
  | finish => intro b _ _; trivial

lemma spawn1_pure {S : Type} (t : Prog S) (ht : ProgPure t) :
    ConfPure (spawn1 t) :=
  ⟨fun _ => ⟨true, rfl⟩, seq_pure t Prog.finish ht trivial⟩

lemma pollGo_pure {S : Type} (s : S) :
    ∀ (ts : List (Conf S)) (j : Nat), (∀ c ∈ ts, ConfPure c) →
      ∃ pr, pollGo s ts j = Except.ok pr := by
  intro ts
  induction ts with
  | nil => intro j _; exact ⟨([], []), rfl⟩
  | cons c rest ih =>
    intro j hpure
    have hrest : ∀ c' ∈ rest, ConfPure c' := fun c' hc' => hpure c' (by simp [hc'])
    cases c with
    | fin =>
      simp only [pollGo, Conf.send]
      exact ih (j + 1) hrest
    | susp p k =>
      obtain ⟨b, hb⟩ := (hpure (Conf.susp p k) (by simp)).1 s
      obtain ⟨⟨r', t'⟩, hrec⟩ := ih (j + 1) hrest
      cases b with
      | true =>
        simp only [pollGo, Conf.send, hb, hrec]
        exact ⟨(j :: r', j :: t'), rfl⟩
      | false =>
        simp only [pollGo, Conf.send, hb, hrec]
        exact ⟨(r', j :: t'), rfl⟩

/-- Unfolding of `runLoop` at exhausted budget. -/
lemma runLoop_zero {S : Type} (s : S) (threads : List (Conf S)) (oracle : List Nat) :
    runLoop 0 s threads oracle = ⟨Except.ok SimResult.SimTimeout, s, 0, []⟩ := rfl

/-- Unfolding of `runLoop` when the poll phase raises. -/
lemma runLoop_poll_error {S : Type} (fuel : Nat) (s : S) (threads : List (Conf S))
    (oracle : List Nat) (e : Exc) (hpoll : poll s threads = Except.error e) :
    runLoop (fuel + 1) s threads oracle = ⟨Except.error e, s, 1, []⟩ := by
  simp only [runLoop, hpoll]

/-- Unfolding of `runLoop` when the poll phase finds no runnable thread. -/
lemma runLoop_no_runnable {S : Type} (fuel : Nat) (s : S) (threads : List (Conf S))
    (oracle : List Nat) (available : List Nat)
    (hpoll : poll s threads = Except.ok ([], available)) :
    runLoop (fuel + 1) s threads oracle
      = if available.isEmpty then ⟨Except.ok SimResult.SimOk, s, 1, []⟩
        else ⟨Except.ok SimResult.SimDeadlock, s, 1, []⟩ := by
  simp only [runLoop, hpoll, List.isEmpty_nil, if_true]

/-- Unfolding of `runLoop` when the chosen thread's step raises. -/
lemma runLoop_step_raised {S : Type} (fuel : Nat) (s : S) (threads : List (Conf S))
    (oracle : List Nat) (runnables available : List Nat) (e : Exc) (s' : S)
    (hpoll : poll s threads = Except.ok (runnables, available))
    (hr : runnables.isEmpty = false)
    (hsend : Conf.send s (threads.getD (choice runnables (oracle.headD 0)) Conf.fin)
        SchedulerMessage.CONT = StepOut.raised e s') :
    runLoop (fuel + 1) s threads oracle
      = ⟨Except.ok (SimResult.SimPanic e), s', 1,
          [choice runnables (oracle.headD 0)]⟩ := by
  simp only [runLoop, hpoll]
  rw [if_neg (by rw [hr]; simp)]
  rw [hsend]

/-- Unfolding of `runLoop` when the chosen thread's step hits `StopIteration`. -/
lemma runLoop_step_stopped {S : Type} (fuel : Nat) (s : S) (threads : List (Conf S))
    (oracle : List Nat) (runnables available : List Nat) (s' : S)
    (hpoll : poll s threads = Except.ok (runnables, available))
    (hr : runnables.isEmpty = false)
    (hsend : Conf.send s (threads.getD (choice runnables (oracle.headD 0)) Conf.fin)
        SchedulerMessage.CONT = StepOut.stopped s') :
    runLoop (fuel + 1) s threads oracle
      = ⟨Except.ok (SimResult.SimPanic Exc.stopIteration), s', 1,
          [choice runnables (oracle.headD 0)]⟩ := by
  simp only [runLoop, hpoll]
  rw [if_neg (by rw [hr]; simp)]
  rw [hsend]

/-- Unfolding of `runLoop` when the chosen thread suspends with `YIELD`. -/
lemma runLoop_step_suspended {S : Type} (fuel : Nat) (s : S) (threads : List (Conf S))
    (oracle : List Nat) (runnables available : List Nat) (c' : Conf S) (s' : S)
    (hpoll : poll s threads = Except.ok (runnables, available))
    (hr : runnables.isEmpty = false)
    (hsend : Conf.send s (threads.getD (choice runnables (oracle.headD 0)) Conf.fin)
        SchedulerMessage.CONT = StepOut.suspended c' s' ThreadState.YIELD) :
    runLoop (fuel + 1) s threads oracle
      = ⟨(runLoop fuel s' (threads.set (choice runnables (oracle.headD 0)) c') oracle.tail).result,
         (runLoop fuel s' (threads.set (choice runnables (oracle.headD 0)) c') oracle.tail).state,
         (runLoop fuel s' (threads.set (choice runnables (oracle.headD 0)) c') oracle.tail).iters + 1,
         choice runnables (oracle.headD 0)
           :: (runLoop fuel s' (threads.set (choice runnables (oracle.headD 0)) c') oracle.tail).trace⟩ := by
  simp only [runLoop, hpoll]
  rw [if_neg (by rw [hr]; simp)]
  rw [hsend]
  rfl

/-- Unfolding of `runLoop` when the chosen thread suspends with a state other
than `YIELD`: the engine's `assert` fails and the `AssertionError` propagates
(it sits outside the `try` block). -/
lemma runLoop_step_suspended_bad {S : Type} (fuel : Nat) (s : S)
    (threads : List (Conf S)) (oracle : List Nat) (runnables available : List Nat)
    (c' : Conf S) (s' : S) (st : ThreadState)
    (hpoll : poll s threads = Except.ok (runnables, available))
    (hr : runnables.isEmpty = false)
    (hsend : Conf.send s (threads.getD (choice runnables (oracle.headD 0)) Conf.fin)
        SchedulerMessage.CONT = StepOut.suspended c' s' st)
    (hst : st ≠ ThreadState.YIELD) :
    runLoop (fuel + 1) s threads oracle
      = ⟨Except.error Exc.assertionError, s', 1,
          [choice runnables (oracle.headD 0)]⟩ := by
  simp only [runLoop, hpoll]
  rw [if_neg (by rw [hr]; simp)]
  rw [hsend]
  exact if_neg hst

lemma runLoop_iters_le {S : Type} :
    ∀ (fuel : Nat) (s : S) (threads : List (Conf S)) (oracle : List Nat),
      (runLoop fuel s threads oracle).iters ≤ fuel := by
  intro fuel
  induction fuel with
  | zero => intro s threads oracle; simp [runLoop_zero]
  | succ fuel ih =>
    intro s threads oracle
    cases hpoll : poll s threads with
    | error e =>
      rw [runLoop_poll_error fuel s threads oracle e hpoll]
      show 1 ≤ fuel + 1
      omega
    | ok pr =>
      obtain ⟨runnables, available⟩ := pr
      cases runnables with
      | nil =>
        rw [runLoop_no_runnable fuel s threads oracle available hpoll]
        split
        · show 1 ≤ fuel + 1
          omega
        · show 1 ≤ fuel + 1
          omega
      | cons a rest =>
        have hr : (a :: rest).isEmpty = false := rfl
        cases hsend : Conf.send s
            (threads.getD (choice (a :: rest) (oracle.headD 0)) Conf.fin)
            SchedulerMessage.CONT with
        | raised e s' =>
          rw [runLoop_step_raised fuel s threads oracle (a :: rest) available e s' hpoll hr hsend]
          show 1 ≤ fuel + 1
          omega
        | stopped s' =>
          rw [runLoop_step_stopped fuel s threads oracle (a :: rest) available s' hpoll hr hsend]
          show 1 ≤ fuel + 1
          omega
        | suspended c' s' st =>
          by_cases hst : st = ThreadState.YIELD
          · subst hst
            rw [runLoop_step_suspended fuel s threads oracle (a :: rest) available c' s' hpoll hr hsend]
            exact Nat.succ_le_succ (ih _ _ _)
          · rw [runLoop_step_suspended_bad fuel s threads oracle (a :: rest) available c' s' st hpoll hr hsend hst]
            show 1 ≤ fuel + 1
            omega

lemma runLoop_timeout_iters {S : Type} :
    ∀ (fuel : Nat) (s : S) (threads : List (Conf S)) (oracle : List Nat),
      (runLoop fuel s threads oracle).result = Except.ok SimResult.SimTimeout →
      (runLoop fuel s threads oracle).iters = fuel := by
  intro fuel
  induction fuel with
  | zero => intro s threads oracle _; rfl
  | succ fuel ih =>
    intro s threads oracle h
    cases hpoll : poll s threads with
    | error e =>
      rw [runLoop_poll_error fuel s threads oracle e hpoll] at h
      cases h
    | ok pr =>
      obtain ⟨runnables, available⟩ := pr
      cases runnables with
      | nil =>
        rw [runLoop_no_runnable fuel s threads oracle available hpoll] at h
        split at h
        · cases h
        · cases h
      | cons a rest =>
        have hr : (a :: rest).isEmpty = false := rfl
        cases hsend : Conf.send s
            (threads.getD (choice (a :: rest) (oracle.headD 0)) Conf.fin)
            SchedulerMessage.CONT with
        | raised e s' =>
          rw [runLoop_step_raised fuel s threads oracle (a :: rest) available e s' hpoll hr hsend] at h
          cases h
        | stopped s' =>
          rw [runLoop_step_stopped fuel s threads oracle (a :: rest) available s' hpoll hr hsend] at h
          cases h
        | suspended c' s' st =>
          by_cases hst : st = ThreadState.YIELD
          · subst hst
            rw [runLoop_step_suspended fuel s threads oracle (a :: rest) available c' s' hpoll hr hsend] at h ⊢
            exact congrArg (fun n => n + 1) (ih _ _ _ h)
          · rw [runLoop_step_suspended_bad fuel s threads oracle (a :: rest) available c' s' st hpoll hr hsend hst] at h
            cases h

lemma runLoop_fin_not_in_trace {S : Type} :
    ∀ (fuel : Nat) (s : S) (threads : List (Conf S)) (oracle : List Nat)
      (i : Nat) (hlen : i < threads.length),
      threads.get ⟨i, hlen⟩ = Conf.fin →
      i ∉ (runLoop fuel s threads oracle).trace := by
  intro fuel
  induction fuel with
  | zero => intro s threads oracle i hlen hfin; simp [runLoop_zero]
  | succ fuel ih =>
    intro s threads oracle i hlen hfin
    cases hpoll : poll s threads with
    | error e => simp [runLoop_poll_error fuel s threads oracle e hpoll]
    | ok pr =>
      obtain ⟨runnables, available⟩ := pr
      cases runnables with
      | nil =>
        rw [runLoop_no_runnable fuel s threads oracle available hpoll]
        split <;> simp
      | cons a rest =>
        have hr : (a :: rest).isEmpty = false := rfl
        have hne : (a :: rest) ≠ ([] : List Nat) := by simp
        have hchoice := choice_mem (a :: rest) (oracle.headD 0) hne
        have hnotin := poll_fin_not_ready s threads (a :: rest) available hpoll i hlen hfin
        have hne2 : choice (a :: rest) (oracle.headD 0) ≠ i := by
          intro hh
          rw [hh] at hchoice
          exact hnotin hchoice
        cases hsend : Conf.send s
            (threads.getD (choice (a :: rest) (oracle.headD 0)) Conf.fin)
            SchedulerMessage.CONT with
        | raised e s' =>
          rw [runLoop_step_raised fuel s threads oracle (a :: rest) available e s' hpoll hr hsend]
          intro hmem
          exact hne2 (List.mem_singleton.mp hmem).symm
        | stopped s' =>
          rw [runLoop_step_stopped fuel s threads oracle (a :: rest) available s' hpoll hr hsend]
          intro hmem
          exact hne2 (List.mem_singleton.mp hmem).symm
        | suspended c' s' st =>
          by_cases hst : st = ThreadState.YIELD
          · subst hst
            rw [runLoop_step_suspended fuel s threads oracle (a :: rest) available c' s' hpoll hr hsend]
            show i ∉ choice (a :: rest) (oracle.headD 0)
              :: (runLoop fuel s' (threads.set (choice (a :: rest) (oracle.headD 0)) c') oracle.tail).trace
            intro hmem
            rcases List.mem_cons.mp hmem with hh | hh
            · exact hne2 hh.symm
            · have hlen' : i < (threads.set (choice (a :: rest) (oracle.headD 0)) c').length := by
                simpa using hlen
              have hfin' :
                  (threads.set (choice (a :: rest) (oracle.headD 0)) c').get ⟨i, hlen'⟩
                    = Conf.fin := by
                have hx := List.getElem_set_ne (l := threads) (a := c') hne2
                  (by simpa using hlen)
                simpa [← hfin] using hx
              exact ih _ _ _ i hlen' hfin' hh
          · rw [runLoop_step_suspended_bad fuel s threads oracle (a :: rest) available c' s' st hpoll hr hsend hst]
            intro hmem
            exact hne2 (List.mem_singleton.mp hmem).symm

lemma runLoop_pure_ok {S : Type} :
    ∀ (fuel : Nat) (s : S) (threads : List (Conf S)) (oracle : List Nat),
      (∀ c ∈ threads, ConfPure c) →
      ∃ r, (runLoop fuel s threads oracle).result = Except.ok r := by
  intro fuel
  induction fuel with
  | zero => intro s threads oracle _; exact ⟨SimResult.SimTimeout, rfl⟩
  | succ fuel ih =>
    intro s threads oracle hpure
    obtain ⟨⟨runnables, available⟩, hpoll⟩ := pollGo_pure s threads 0 hpure
    have hpoll' : poll s threads = Except.ok (runnables, available) := hpoll
    cases runnables with
    | nil =>
      rw [runLoop_no_runnable fuel s threads oracle available hpoll']
      by_cases ha : available.isEmpty = true
      · exact ⟨SimResult.SimOk, by rw [if_pos ha]⟩
      · exact ⟨SimResult.SimDeadlock, by rw [if_neg ha]⟩
    | cons a rest =>
      have hr : (a :: rest).isEmpty = false := rfl
      have hne : (a :: rest) ≠ ([] : List Nat) := by simp
      have hchoice := choice_mem (a :: rest) (oracle.headD 0) hne
      obtain ⟨hm, p, k, hget, hp⟩ :=
        poll_ready_spec s threads (a :: rest) available hpoll'
          (choice (a :: rest) (oracle.headD 0)) hchoice
      have hgetD :
          threads.getD (choice (a :: rest) (oracle.headD 0)) Conf.fin
            = Conf.susp p k := by
        rw [List.getD_eq_getElem threads Conf.fin hm]
        exact hget
      have hkpure : ProgPure k := by
        have hmem := List.get_mem threads _ hm
        rw [hget] at hmem
        exact (hpure _ hmem).2
      cases hsend : Conf.send s
          (threads.getD (choice (a :: rest) (oracle.headD 0)) Conf.fin)
          SchedulerMessage.CONT with
      | raised e s' =>
        exact ⟨SimResult.SimPanic e,
          by rw [runLoop_step_raised fuel s threads oracle (a :: rest) available e s' hpoll' hr hsend]⟩
      | stopped s' =>
        exact ⟨SimResult.SimPanic Exc.stopIteration,
          by rw [runLoop_step_stopped fuel s threads oracle (a :: rest) available s' hpoll' hr hsend]⟩
      | suspended c' s' st =>
        have hadv : k.advance s = StepOut.suspended c' s' st := by
          rw [hgetD] at hsend
          exact hsend
        have hst : st = ThreadState.YIELD := advance_yield k s c' s' st hadv
        subst hst
        have hc'pure : ConfPure c' :=
          advance_pure k s c' s' ThreadState.YIELD hkpure hadv
        have hpure' : ∀ c ∈ threads.set (choice (a :: rest) (oracle.headD 0)) c',
            ConfPure c := by
          intro c hc
          rcases List.mem_or_eq_of_mem_set hc with hcc | hcc
          · exact hpure c hcc
          · rw [hcc]; exact hc'pure
        obtain ⟨r, hrec⟩ := ih s'
          (threads.set (choice (a :: rest) (oracle.headD 0)) c') oracle.tail hpure'
        refine ⟨r, ?_⟩
        rw [runLoop_step_suspended fuel s threads oracle (a :: rest) available c' s' hpoll' hr hsend]
        exact hrec

/-! ## Claim theorems: run driver and library -/

/-- C3: the `RunStats` value returned by `simsched(constructors, looper)`
satisfies `total = ok + deadlock + timeout + panic`, where `total` counts all
completed runs (the instrumented run counter `n`). -/
theorem C3_stats_total {S : Type} (coros : List (Prog S)) (s : S)
    (looper : RunStats → Bool) (oracles : Nat → List Nat) (fuel : Nat)
    (st : RunStats) (n : Nat)
    (h : simsched coros s looper oracles fuel = Except.ok (st, n)) :
    st.total = n ∧ st.total = st.ok + st.deadlock + st.timeout + st.panic := by
  refine ⟨?_, rfl⟩
  have := simsched_go_total coros looper oracles fuel 0 s RunStats.init st n h
  simpa [RunStats.init, RunStats.total] using this

/-- Witness for C3: a driver session over one trivial thread whose looper asks
for two runs; both end `Ok` and the returned stats count two completed runs. -/
theorem C3_stats_total_witness :
    simsched [(Prog.ret : Prog Unit)] () (fun st => decide (st.total < 2))
        (fun _ => []) 3
      = Except.ok (⟨2, 0, 0, 0, some SimResult.SimOk⟩, 2)
    ∧ (⟨2, 0, 0, 0, some SimResult.SimOk⟩ : RunStats).total = 2 :=
  ⟨rfl,
   (C3_stats_total [(Prog.ret : Prog Unit)] () (fun st => decide (st.total < 2))
     (fun _ => []) 3 ⟨2, 0, 0, 0, some SimResult.SimOk⟩ 2 rfl).1⟩

/-- C5: each driver iteration increments exactly the counter matching the
run's result by one, leaves the other counters unchanged (the record
equalities below exhibit the whole frame), sets `last` to that run's result,
and each counter is monotonically non-decreasing under the update.  `simsched`
applies `simsched_update` once per completed run by definition of
`simsched_go`. -/
theorem C5_driver_frame (stats : RunStats) (e : Exc) :
    (∀ r, (simsched_update stats r).last = some r)
    ∧ (∀ r, (simsched_update stats r).total = stats.total + 1)
    ∧ simsched_update stats SimResult.SimOk
        = { stats with ok := stats.ok + 1, last := some SimResult.SimOk }
    ∧ simsched_update stats SimResult.SimDeadlock
        = { stats with deadlock := stats.deadlock + 1, last := some SimResult.SimDeadlock }
    ∧ simsched_update stats SimResult.SimTimeout
        = { stats with timeout := stats.timeout + 1, last := some SimResult.SimTimeout }
    ∧ simsched_update stats (SimResult.SimPanic e)
        = { stats with panic := stats.panic + 1, last := some (SimResult.SimPanic e) }
    ∧ (∀ r, stats.ok ≤ (simsched_update stats r).ok
        ∧ stats.deadlock ≤ (simsched_update stats r).deadlock
        ∧ stats.timeout ≤ (simsched_update stats r).timeout
        ∧ stats.panic ≤ (simsched_update stats r).panic) := by
  refine ⟨?_, simsched_update_total stats, rfl, rfl, rfl, rfl, ?_⟩
  · intro r; cases r <;> rfl
  · intro r
    cases r <;> refine ⟨?_, ?_, ?_, ?_⟩ <;> simp [simsched_update]

/-- C7: `Mutex.unlock` raises its domain error (`RuntimeError`) exactly when
the mutex is not locked, leaving the state untouched on that error; otherwise
it clears `locked` and `owner`, keeps `label`, and then yields via
`schedule()`. -/
theorem C7_mutex_unlock {O : Type} (m : Mutex O) :
    ((Mutex.unlock_act m).2.isSome ↔ m.locked = false)
    ∧ (m.locked = false → Mutex.unlock_act m = (m, some Exc.runtimeError))
    ∧ (m.locked = true → Mutex.unlock_act m = (⟨false, m.label, none⟩, none))
    ∧ (Mutex.unlock : Prog (Mutex O)) = Prog.act Mutex.unlock_act Prog.schedule := by
  refine ⟨?_, ?_, ?_, rfl⟩ <;> cases hm : m.locked <;> simp [Mutex.unlock_act, hm]

/-- Witness for C7: unlocking a locked mutex clears `locked` and `owner` and
keeps the label; unlocking an unlocked mutex errors with the state intact. -/
theorem C7_mutex_unlock_witness :
    Mutex.unlock_act (⟨true, some 5, some 3⟩ : Mutex Nat)
      = (⟨false, some 5, none⟩, none)
    ∧ Mutex.unlock_act (⟨false, some 5, some 3⟩ : Mutex Nat)
      = (⟨false, some 5, some 3⟩, some Exc.runtimeError) :=
  ⟨(C7_mutex_unlock ⟨true, some 5, some 3⟩).2.2.1 rfl,
   (C7_mutex_unlock ⟨false, some 5, some 3⟩).2.1 rfl⟩

/-- C8: `send(x)` into an empty buffer followed by `recv(out)` with no
intervening producers or consumers stores `x` in the out-cell and leaves the
buffer empty; `peek` copies the head without removing it, `consume` removes
exactly the head, `recv` is peek followed by consume, and sends preserve FIFO
order with no loss. -/
theorem C8_channel_fifo {α : Type} (x y : α) (rest : List α) (c : ChanState α)
    (xs : List α) :
    (c.buf = [] →
      TxChannel.send_act x c = (⟨[x], c.ret⟩, none)
      ∧ RxChannel.peek_pred (⟨[x], c.ret⟩ : ChanState α) = Except.ok true
      ∧ RxChannel.peek_act (⟨[x], c.ret⟩ : ChanState α) = (⟨[x], ⟨x⟩⟩, none)
      ∧ RxChannel.consume_act (⟨[x], ⟨x⟩⟩ : ChanState α) = (⟨[], ⟨x⟩⟩, none))
    ∧ (c.buf = y :: rest →
      RxChannel.peek_act c = ({ c with ret := ⟨y⟩ }, none)
      ∧ RxChannel.consume_act c = ({ c with buf := rest }, none))
    ∧ (RxChannel.recv : Prog (ChanState α))
        = Prog.seq RxChannel.peek (Prog.act RxChannel.consume_act Prog.ret)
    ∧ (sendAll xs c).buf = c.buf ++ xs := by
  refine ⟨?_, ?_, rfl, sendAll_buf xs c⟩
  · intro hbuf
    obtain ⟨buf, r⟩ := c
    dsimp at hbuf
    subst hbuf
    exact ⟨rfl, rfl, rfl, rfl⟩
  · intro hbuf
    obtain ⟨buf, r⟩ := c
    dsimp at hbuf
    subst hbuf
    exact ⟨rfl, rfl⟩

/-- Witness for C8: a concrete send/peek/consume round-trip through a fresh
channel, and peek/consume on a two-element buffer. -/
theorem C8_channel_fifo_witness :
    TxChannel.send_act 7 (create_channel 0) = (⟨[7], ⟨0⟩⟩, none)
    ∧ RxChannel.peek_act (⟨[7], ⟨0⟩⟩ : ChanState Nat) = (⟨[7], ⟨7⟩⟩, none)
    ∧ RxChannel.consume_act (⟨[7], ⟨7⟩⟩ : ChanState Nat) = (⟨[], ⟨7⟩⟩, none)
    ∧ RxChannel.peek_act (⟨[1, 2], ⟨0⟩⟩ : ChanState Nat) = (⟨[1, 2], ⟨1⟩⟩, none)
    ∧ RxChannel.consume_act (⟨[1, 2], ⟨0⟩⟩ : ChanState Nat) = (⟨[2], ⟨0⟩⟩, none) := by
  have A := C8_channel_fifo 7 0 ([] : List Nat) (create_channel 0) []
  have B := C8_channel_fifo 7 1 [2] (⟨[1, 2], ⟨0⟩⟩ : ChanState Nat) []
  exact ⟨(A.1 rfl).1, (A.1 rfl).2.2.1, (A.1 rfl).2.2.2,
    (B.2.1 rfl).1, (B.2.1 rfl).2⟩

/-- C10: `RxChannel.consume()` on an empty shared buffer raises `IndexError`
(`deque.popleft` on an empty deque), with the state unchanged; whenever the
buffer is non-empty — in particular after a completed `peek`, whose wakeup
predicate guarantees non-emptiness — the error branch is unreachable. -/
theorem C10_consume_empty {α : Type} (c : ChanState α) :
    (c.buf = [] → RxChannel.consume_act c = (c, some Exc.indexError))
    ∧ (c.buf ≠ [] → (RxChannel.consume_act c).2 = none)
    ∧ (RxChannel.peek_pred c = Except.ok true → (RxChannel.consume_act c).2 = none) := by
  obtain ⟨buf, r⟩ := c
  cases buf with
  | nil =>
    refine ⟨fun _ => rfl, fun h => absurd rfl h, fun h => ?_⟩
    simp [RxChannel.peek_pred] at h
  | cons z t =>
    exact ⟨fun h => by simp at h, fun _ => rfl, fun _ => rfl⟩

/-- Witness for C10: consume on an empty buffer errors with `IndexError`;
consume on non-empty buffers (directly, and via a satisfied peek predicate)
succeeds. -/
theorem C10_consume_empty_witness :
    RxChannel.consume_act (⟨[], ⟨0⟩⟩ : ChanState Nat)
      = (⟨[], ⟨0⟩⟩, some Exc.indexError)
    ∧ (RxChannel.consume_act (⟨[4], ⟨0⟩⟩ : ChanState Nat)).2 = none
    ∧ (RxChannel.consume_act (⟨[9], ⟨0⟩⟩ : ChanState Nat)).2 = none :=
  ⟨(C10_consume_empty _).1 rfl, (C10_consume_empty _).2.1 (by simp),
   (C10_consume_empty _).2.2 rfl⟩

/-! ## Claim theorems: engine -/

/-- C1: `finish` suspends publishing `Yield` once; on every subsequent `Poll`
the thread publishes `Final` and stays in the `fin` configuration (sticky, so
it never reports `Ready` again); a `fin` thread never enters the runnable set
of a poll, and across the whole main loop its index never appears in the trace
of `Cont` deliveries. -/
theorem C1_finish_sticky {S : Type} :
    (∀ s : S, Prog.finish.advance s
        = StepOut.suspended Conf.fin s ThreadState.YIELD)
    ∧ (∀ s : S, Conf.send s Conf.fin SchedulerMessage.POLL
        = StepOut.suspended Conf.fin s ThreadState.FINAL)
    ∧ (∀ (s : S) (threads : List (Conf S)) (rdy tot : List Nat) (i : Nat)
        (hlen : i < threads.length),
      threads.get ⟨i, hlen⟩ = Conf.fin →
      poll s threads = Except.ok (rdy, tot) → i ∉ rdy)
    ∧ (∀ (fuel : Nat) (s : S) (threads : List (Conf S)) (oracle : List Nat)
        (i : Nat) (hlen : i < threads.length),
      threads.get ⟨i, hlen⟩ = Conf.fin →
      i ∉ (runLoop fuel s threads oracle).trace) := by
  refine ⟨fun _ => rfl, fun _ => rfl, ?_, runLoop_fin_not_in_trace⟩
  intro s threads rdy tot i hlen hfin hpoll
  exact poll_fin_not_ready s threads rdy tot hpoll i hlen hfin

/-- Witness for C1: a finished thread yields `YIELD` entering `finish`, then
`FINAL` on poll; with thread list `[fin]` it is neither ready nor ever traced. -/
theorem C1_finish_sticky_witness :
    Prog.finish.advance () = StepOut.suspended Conf.fin () ThreadState.YIELD
    ∧ Conf.send () Conf.fin SchedulerMessage.POLL
        = StepOut.suspended Conf.fin () ThreadState.FINAL
    ∧ (0 : Nat) ∉ ([] : List Nat)
    ∧ (0 : Nat) ∉ (runLoop 3 () [Conf.fin] [0]).trace := by
  refine ⟨(@C1_finish_sticky Unit).1 (), (@C1_finish_sticky Unit).2.1 (), ?_, ?_⟩
  · exact (@C1_finish_sticky Unit).2.2.1 () [Conf.fin] [] [] 0 (by simp) rfl rfl
  · exact (@C1_finish_sticky Unit).2.2.2 3 () [Conf.fin] [0] 0 (by simp) rfl

/-- C2: `run` returns exactly one of the four `SimResult` variants; in any
iteration whose poll phase finds the runnable set empty it returns `SimOk`
when the live set is also empty and `SimDeadlock` otherwise; and for the empty
constructor list it returns `SimOk` immediately (for any `max_steps ≥ 1`, in
particular the default). -/
theorem C2_result_classification {S : Type} :
    (∀ r : SimResult, r = SimResult.SimOk ∨ r = SimResult.SimDeadlock
      ∨ r = SimResult.SimTimeout ∨ ∃ e, r = SimResult.SimPanic e)
    ∧ (∀ (fuel : Nat) (s : S) (threads : List (Conf S)) (oracle : List Nat)
        (avail : List Nat),
      poll s threads = Except.ok ([], avail) →
      (runLoop (fuel + 1) s threads oracle).result
        = Except.ok (if avail.isEmpty then SimResult.SimOk
            else SimResult.SimDeadlock))
    ∧ (∀ (s : S) (oracle : List Nat) (ms : Nat), 1 ≤ ms →
      (run ([] : List (Prog S)) s oracle ms).result
        = Except.ok SimResult.SimOk) := by
  refine ⟨?_, ?_, ?_⟩
  · intro r
    cases r with
    | SimOk => exact Or.inl rfl
    | SimDeadlock => exact Or.inr (Or.inl rfl)
    | SimTimeout => exact Or.inr (Or.inr (Or.inl rfl))
    | SimPanic e => exact Or.inr (Or.inr (Or.inr ⟨e, rfl⟩))
  · intro fuel s threads oracle avail hpoll
    rw [runLoop_no_runnable fuel s threads oracle avail hpoll]
    by_cases ha : avail.isEmpty = true
    · simp [ha]
    · simp [ha]
  · intro s oracle ms hms
    cases ms with
    | zero => omega
    | succ k =>
      show (runLoop (k + 1) s ([] : List (Conf S)) oracle).result
        = Except.ok SimResult.SimOk
      rw [runLoop_no_runnable k s [] oracle [] rfl]
      rfl

/-- Witness for C2: the empty thread list gives `SimOk` in one loop iteration
and through `run` with the default budget. -/
theorem C2_result_classification_witness :
    (runLoop 1 () ([] : List (Conf Unit)) []).result = Except.ok SimResult.SimOk
    ∧ (run ([] : List (Prog Unit)) () [] 1000).result
        = Except.ok SimResult.SimOk := by
  refine ⟨?_, (@C2_result_classification Unit).2.2 () [] 1000 (by omega)⟩
  exact (@C2_result_classification Unit).2.1 0 () [] [] [] rfl

/-- C4: an exception raised by user code while a thread is advanced with
`Cont` makes `run` return `SimPanic` carrying that very exception object; and
as long as the poll predicates obey their purity contract, no exception
escapes the loop or `run` — every outcome is a normally returned `SimResult`. -/
theorem C4_panic_containment {S : Type} :
    (∀ (fuel : Nat) (s : S) (threads : List (Conf S)) (oracle : List Nat)
        (runnables available : List Nat) (e : Exc) (s' : S),
      poll s threads = Except.ok (runnables, available) →
      runnables.isEmpty = false →
      Conf.send s (threads.getD (choice runnables (oracle.headD 0)) Conf.fin)
          SchedulerMessage.CONT = StepOut.raised e s' →
      (runLoop (fuel + 1) s threads oracle).result
        = Except.ok (SimResult.SimPanic e))
    ∧ (∀ (fuel : Nat) (s : S) (threads : List (Conf S)) (oracle : List Nat),
      (∀ c ∈ threads, ConfPure c) →
      ∃ r, (runLoop fuel s threads oracle).result = Except.ok r)
    ∧ (∀ (coros : List (Prog S)) (s : S) (oracle : List Nat) (ms : Nat),
      (∀ t ∈ coros, ProgPure t) →
      ∃ r, (run coros s oracle ms).result = Except.ok r) := by
  refine ⟨?_, runLoop_pure_ok, ?_⟩
  · intro fuel s threads oracle runnables available e s' hpoll hr hsend
    rw [runLoop_step_raised fuel s threads oracle runnables available e s'
      hpoll hr hsend]
  · intro coros s oracle ms hp
    apply runLoop_pure_ok
    intro c hc
    obtain ⟨t, ht, rfl⟩ := List.mem_map.mp hc
    exact spawn1_pure t (hp t ht)

/-- Witness for C4: a thread whose first step raises `user 7` produces
`SimPanic (user 7)`, and a run over the pure trivial thread returns normally. -/
theorem C4_panic_containment_witness :
    (runLoop 1 ()
        [spawn1 (Prog.act (fun s => (s, some (Exc.user 7))) Prog.ret)] []).result
      = Except.ok (SimResult.SimPanic (Exc.user 7))
    ∧ ∃ r, (run [(Prog.ret : Prog Unit)] () [] 5).result = Except.ok r := by
  constructor
  · exact (@C4_panic_containment Unit).1 0 ()
      [spawn1 (Prog.act (fun s => (s, some (Exc.user 7))) Prog.ret)] []
      [0] [0] (Exc.user 7) () rfl rfl rfl
  · refine (@C4_panic_containment Unit).2.2 [Prog.ret] () [] 5 ?_
    intro t ht
    have : t = Prog.ret := by simpa using ht
    rw [this]
    trivial

/-- C6: the engine's main loop executes at most `max_steps + thread_count`
iterations; an exhausted budget (zero remaining fuel) yields `SimTimeout`, and
a `SimTimeout` result means the full budget was consumed; `max_steps` defaults
to 1000.  Termination of `run` holds by construction: it is a total function
of its fuel. -/
theorem C6_step_budget {S : Type} :
    (∀ (coros : List (Prog S)) (s : S) (oracle : List Nat) (ms : Nat),
      (run coros s oracle ms).iters ≤ ms + coros.length)
    ∧ (∀ (s : S) (threads : List (Conf S)) (oracle : List Nat),
      runLoop 0 s threads oracle = ⟨Except.ok SimResult.SimTimeout, s, 0, []⟩)
    ∧ (∀ (coros : List (Prog S)) (s : S) (oracle : List Nat) (ms : Nat),
      (run coros s oracle ms).result = Except.ok SimResult.SimTimeout →
      (run coros s oracle ms).iters = ms + coros.length)
    ∧ (∀ (coros : List (Prog S)) (s : S) (oracle : List Nat),
      run_default coros s oracle = run coros s oracle 1000) := by
  refine ⟨?_, runLoop_zero, ?_, fun _ _ _ => rfl⟩
  · intro coros s oracle ms
    exact runLoop_iters_le (ms + coros.length) s (spawn_coroutines coros) oracle
  · intro coros s oracle ms h
    exact runLoop_timeout_iters (ms + coros.length) s (spawn_coroutines coros)
      oracle h

/-- Witness for C6: a two-step thread under `max_steps = 1` times out after
exactly `1 + 1` iterations, within the budget; the default budget equals
`run` at 1000. -/
theorem C6_step_budget_witness :
    (run [Prog.cond_schedule (fun _ => Except.ok true)
        (Prog.cond_schedule (fun _ => Except.ok true) (Prog.ret : Prog Unit))]
        () [] 1).result = Except.ok SimResult.SimTimeout
    ∧ (run [Prog.cond_schedule (fun _ => Except.ok true)
        (Prog.cond_schedule (fun _ => Except.ok true) (Prog.ret : Prog Unit))]
        () [] 1).iters = 2
    ∧ (run [Prog.cond_schedule (fun _ => Except.ok true)
        (Prog.cond_schedule (fun _ => Except.ok true) (Prog.ret : Prog Unit))]
        () [] 1).iters ≤ 2
    ∧ run_default [(Prog.ret : Prog Unit)] () []
        = run [(Prog.ret : Prog Unit)] () [] 1000 := by
  refine ⟨rfl, ?_, ?_, (@C6_step_budget Unit).2.2.2 [Prog.ret] () []⟩
  · exact (@C6_step_budget Unit).2.2.1 _ () [] 1 rfl
  · exact (@C6_step_budget Unit).1 _ () [] 1

/-- C9: an exception raised by a `cond_schedule` predicate during the poll
phase propagates out of `run` uncaught (the `poll` call sits outside the
engine's `try` block), in contrast to exceptions raised while advancing a
thread with `Cont`, which become `SimPanic` (see C4). -/
theorem C9_poll_exception_propagates {S : Type} :
    (∀ (fuel : Nat) (s : S) (threads : List (Conf S)) (oracle : List Nat)
        (e : Exc),
      poll s threads = Except.error e →
      (runLoop (fuel + 1) s threads oracle).result = Except.error e)
    ∧ (∀ (s : S) (oracle : List Nat) (ms : Nat) (e : Exc), 1 ≤ ms →
      (run [Prog.cond_schedule (fun _ => Except.error e) Prog.ret]
          s oracle ms).result = Except.error e) := by
  constructor
  · intro fuel s threads oracle e hpoll
    rw [runLoop_poll_error fuel s threads oracle e hpoll]
  · intro s oracle ms e hms
    cases ms with
    | zero => omega
    | succ k =>
      have hch : choice [0] (oracle.headD 0) = 0 := by
        show [0].getD ((oracle.headD 0) % 1) 0 = 0
        rw [Nat.mod_one]
        rfl
      have hsend : Conf.send s
          ([spawn1 (Prog.cond_schedule (fun _ => Except.error e) Prog.ret)].getD
            (choice [0] (oracle.headD 0)) Conf.fin) SchedulerMessage.CONT
          = StepOut.suspended (Conf.susp (fun _ => Except.error e) Prog.finish)
              s ThreadState.YIELD := by
        rw [hch]
        rfl
      show (runLoop (k + 1 + 1) s
          [spawn1 (Prog.cond_schedule (fun _ => Except.error e) Prog.ret)]
          oracle).result = Except.error e
      rw [runLoop_step_suspended (k + 1) s
        [spawn1 (Prog.cond_schedule (fun _ => Except.error e) Prog.ret)]
        oracle [0] [0] (Conf.susp (fun _ => Except.error e) Prog.finish) s
        rfl rfl hsend]
      show (runLoop (k + 1) s
          ([spawn1 (Prog.cond_schedule (fun _ => Except.error e) Prog.ret)].set
            (choice [0] (oracle.headD 0))
            (Conf.susp (fun _ => Except.error e) Prog.finish))
          oracle.tail).result = Except.error e
      rw [hch]
      show (runLoop (k + 1) s
          [Conf.susp (fun _ => Except.error e) Prog.finish]
          oracle.tail).result = Except.error e
      rw [runLoop_poll_error k s
        [Conf.susp (fun _ => Except.error e) Prog.finish] oracle.tail e rfl]

/-- Witness for C9: a raising poll predicate makes both the loop and a whole
`run` end with the propagated exception, not a `SimResult`. -/
theorem C9_poll_exception_propagates_witness :
    (runLoop 1 () [Conf.susp (fun _ => Except.error (Exc.user 3)) Prog.finish]
        []).result = Except.error (Exc.user 3)
    ∧ (run [Prog.cond_schedule (fun _ => Except.error (Exc.user 3))
        (Prog.ret : Prog Unit)] () [] 1).result = Except.error (Exc.user 3) :=
  ⟨(@C9_poll_exception_propagates Unit).1 0 ()
      [Conf.susp (fun _ => Except.error (Exc.user 3)) Prog.finish] []
      (Exc.user 3) rfl,
   (@C9_poll_exception_propagates Unit).2 () [] 1 (Exc.user 3) (by omega)⟩

end Simsched
